import Mathlib

set_option autoImplicit false

/-!
Shallow embedding of the `@synet/state` repository core: the asynchronous
state store (`src/state-async.unit.ts`, class `StateAsync`) and the
synchronous memory-only store (`src/state.unit.ts`, class `State`).

Modelling choices:
* JavaScript runtime values are `JSVal`; `undefined` and `null` are distinct
  constructors, matching the code's distinction between absent keys and
  stored nulls.
* The object `this.props.currentState` is an association list `Mem` with
  unique keys maintained by `memWrite`; `key in obj` is `memHas`, and
  `obj[key]` (yielding `undefined` when absent) is `memRead`.
* A storage binding call is an awaited promise that either resolves or
  throws: `BRes α` (`ok` / `err`).  A binding is a record of per-call
  behaviours; optional capabilities (`exists`, `clear`) are `Option` fields,
  mirroring the TypeScript optional methods.
* Async methods return `Except StorageErr _`: a thrown error that escaped to
  the caller would be `.error`; the `try/catch` blocks of the source become
  `match` on `BRes` with the catch branch as the fallback arm.  `get` also
  returns the post-call memory so that non-mutation of the mirror is a
  provable statement rather than a typing convention.
* Event handlers are opaque callables identified by `Nat`; `emit` returns
  the ordered list of (handler, data) invocations it performs.
-/

/-- A JavaScript runtime value as stored in the state mapping. -/
inductive JSVal where
  | undef : JSVal
  | null : JSVal
  | bool : Bool → JSVal
  | num : Int → JSVal
  | str : String → JSVal
  deriving DecidableEq

/-- Result of awaiting a storage-binding call: resolved (`ok`) or thrown (`err`). -/
inductive BRes (α : Type) where
  | ok : α → BRes α
  | err : BRes α
  deriving DecidableEq

/-- The in-memory mapping `this.props.currentState`: an association list with
unique keys (a JavaScript plain object keyed by strings). -/
abbrev Mem := List (String × JSVal)

/-- Lookup of a key in the memory object; `none` models key absence. -/
def memLookup (m : Mem) (k : String) : Option JSVal :=
  match m with
  | [] => none
  | (k', v) :: rest => if k' = k then some v else memLookup rest k

/-- JavaScript property read `obj[key]`: `undefined` when the key is absent. -/
def memRead (m : Mem) (k : String) : JSVal :=
  (memLookup m k).getD JSVal.undef

/-- JavaScript `key in obj`: key presence, independent of value nullity. -/
def memHas (m : Mem) (k : String) : Bool :=
  (memLookup m k).isSome

/-- JavaScript property write `obj[key] = v`: replace in place or append. -/
def memWrite (m : Mem) (k : String) (v : JSVal) : Mem :=
  match m with
  | [] => [(k, v)]
  | (k', v') :: rest => if k' = k then (k', v) :: rest else (k', v') :: memWrite rest k v

/-- JavaScript `delete obj[key]`: remove the key's entry. -/
def memDelete (m : Mem) (k : String) : Mem :=
  m.filter (fun p => !(p.1 == k))

/-- The `StorageBinding` interface: per-call behaviour of the pluggable
backend.  `existsFn`/`clearFn` model the optional `exists`/`clear` methods
(`none` = capability absent, distinguishable from a method that throws). -/
structure StorageBinding where
  get : String → BRes JSVal
  set : String → JSVal → Option Nat → BRes Unit
  delete : String → BRes Bool
  existsFn : Option (String → BRes Bool)
  clearFn : Option (BRes Unit)

/-- The event-handler registry `Map<string, EventHandler[]>`, with handlers
as opaque identifiers; Map insertion order is the list order. -/
abbrev Registry := List (String × List Nat)

/-- `Map.get` on the registry. -/
def regLookup (r : Registry) (e : String) : Option (List Nat) :=
  match r with
  | [] => none
  | (e', hs) :: rest => if e' = e then some hs else regLookup rest e

/-- The body of `on(event, handler)`: insert an empty entry when the event is
new, then push the handler at the end of its list. -/
def regRegister (r : Registry) (e : String) (h : Nat) : Registry :=
  match r with
  | [] => [(e, [h])]
  | (e', hs) :: rest =>
      if e' = e then (e', hs ++ [h]) :: rest else (e', hs) :: regRegister rest e h

/-- `StateAsyncProps`: the props record of the `StateAsync` unit. -/
structure StateAsyncProps where
  dnaId : String
  ownerId : String
  currentState : Mem
  eventHandlers : Registry
  emitEvents : Bool
  storage : Option StorageBinding

/-- `StateAsyncConfig`: the argument of `StateAsync.create`; optional fields
are `Option`. -/
structure StateAsyncConfig where
  unitId : String
  initialState : Option Mem
  emitEvents : Option Bool
  storage : Option StorageBinding

/-- A storage-originated error escaping to the caller (never produced by the
store's methods, which wrap every binding call). -/
inductive StorageErr where
  | thrown : StorageErr
  deriving DecidableEq

/-- Payload of an automatic change event: the object literal
with fields oldValue and newValue. -/
structure ChangePayload where
  oldValue : JSVal
  newValue : JSVal
  deriving DecidableEq

/-- `StateAsync.create(config)`: `emitEvents` defaults to `false`,
`initialState` to the empty object, the dna id is prefixed with `state-`. -/
def StateAsync.create (config : StateAsyncConfig) : StateAsyncProps :=
  { dnaId := "state-" ++ config.unitId
    ownerId := config.unitId
    currentState := config.initialState.getD []
    eventHandlers := []
    emitEvents := config.emitEvents.getD false
    storage := config.storage }

/-- JavaScript `value ?? undefined` applied to the binding's resolved value. -/
def nullishToUndef : JSVal → JSVal
  | JSVal.null => JSVal.undef
  | JSVal.undef => JSVal.undef
  | v => v

/-- `StateAsync.emit(event, data)`: invoke the currently registered handlers
for the event, in registration order, passing `data` unchanged; the result is
the ordered invocation list. -/
def StateAsync.emit {α : Type} (s : StateAsyncProps) (event : String) (data : α) :
    List (Nat × α) :=
  ((regLookup s.eventHandlers event).getD []).map (fun h => (h, data))

/-- `StateAsync.get(key)`: try the binding's `get` when a binding is attached
(returning its value through `?? undefined` on success, falling back to
memory inside the catch), else read memory.  The second component is the
memory after the call (the method never assigns to `currentState`). -/
def StateAsync.get (s : StateAsyncProps) (key : String) :
    Except StorageErr (JSVal × Mem) :=
  match s.storage with
  | some b =>
      match b.get key with
      | BRes.ok value => Except.ok (nullishToUndef value, s.currentState)
      | BRes.err => Except.ok (memRead s.currentState key, s.currentState)
  | none => Except.ok (memRead s.currentState key, s.currentState)

/-- `StateAsync.set(key, value, ttl)`: read `oldValue` from memory first;
attempt the delegated write when a binding is attached — on success memory is
left untouched, in the catch branch the value is written to memory; with no
binding, write to memory.  Afterwards, when `emitEvents` is set, emit
`key + ".changed"` with the old/new pair.  Returns the new memory and the
handler invocations performed. -/
def StateAsync.set (s : StateAsyncProps) (key : String) (value : JSVal)
    (ttl : Option Nat) : Except StorageErr (Mem × List (Nat × ChangePayload)) :=
  let oldValue := memRead s.currentState key
  let newState :=
    match s.storage with
    | some b =>
        match b.set key value ttl with
        | BRes.ok _ => s.currentState
        | BRes.err => memWrite s.currentState key value
    | none => memWrite s.currentState key value
  let evs :=
    if s.emitEvents then
      StateAsync.emit s (key ++ ".changed")
        { oldValue := oldValue, newValue := value }
    else []
  Except.ok (newState, evs)

/-- `StateAsync.has(key)`: use the binding's optional `exists` capability when
present (memory-presence fallback in the catch), otherwise check memory. -/
def StateAsync.has (s : StateAsyncProps) (key : String) : Except StorageErr Bool :=
  match s.storage with
  | some b =>
      match b.existsFn with
      | some ex =>
          match ex key with
          | BRes.ok r => Except.ok r
          | BRes.err => Except.ok (memHas s.currentState key)
      | none => Except.ok (memHas s.currentState key)
  | none => Except.ok (memHas s.currentState key)

/-- `StateAsync.delete(key)`: capture the delegated delete's boolean (false
when the binding is absent or throws), record memory presence, always remove
the key from memory, and return `storageDeleted || existed` with the new
memory. -/
def StateAsync.delete (s : StateAsyncProps) (key : String) :
    Except StorageErr (Bool × Mem) :=
  let storageDeleted :=
    match s.storage with
    | some b =>
        match b.delete key with
        | BRes.ok r => r
        | BRes.err => false
    | none => false
  let existed := memHas s.currentState key
  Except.ok (storageDeleted || existed, memDelete s.currentState key)

/-- `StateAsync.clear()`: attempt the optional delegated clear (its outcome is
ignored), then always reset memory to empty. -/
def StateAsync.clear (s : StateAsyncProps) : Except StorageErr Mem :=
  match s.storage with
  | some b =>
      match b.clearFn with
      | some c =>
          match c with
          | BRes.ok _ => Except.ok []
          | BRes.err => Except.ok []
      | none => Except.ok []
  | none => Except.ok []

/-- `StateAsync.getAll()`: shallow copy of the memory mapping only. -/
def StateAsync.getAll (s : StateAsyncProps) : Mem :=
  s.currentState

/-- `StateAsync.on(event, handler)`: register without deduplication. -/
def StateAsync.on (s : StateAsyncProps) (event : String) (h : Nat) : Registry :=
  regRegister s.eventHandlers event h

/-- `StateProps`: the props record of the synchronous `State` unit. -/
structure StateProps where
  dnaId : String
  ownerId : String
  currentState : Mem
  eventHandlers : Registry

/-- `State.get(key)` (synchronous variant): plain memory read. -/
def State.get (s : StateProps) (key : String) : JSVal :=
  memRead s.currentState key

/-- `State.emit(event, data)` (synchronous variant). -/
def State.emit {α : Type} (s : StateProps) (event : String) (data : α) :
    List (Nat × α) :=
  ((regLookup s.eventHandlers event).getD []).map (fun h => (h, data))

/-- `State.set(key, value)` (synchronous variant): write memory and always
emit the change event.  Returns the new memory and the invocations. -/
def State.set (s : StateProps) (key : String) (value : JSVal) :
    Mem × List (Nat × ChangePayload) :=
  let oldValue := memRead s.currentState key
  let newState := memWrite s.currentState key value
  (newState,
    State.emit s (key ++ ".changed") { oldValue := oldValue, newValue := value })

/-- `State.has(key)` (synchronous variant). -/
def State.has (s : StateProps) (key : String) : Bool :=
  memHas s.currentState key

/-- `State.getAll()` (synchronous variant). -/
def State.getAll (s : StateProps) : Mem :=
  s.currentState

/-- `State.on(event, handler)` (synchronous variant). -/
def State.on (s : StateProps) (event : String) (h : Nat) : Registry :=
  regRegister s.eventHandlers event h

/-- A capability value in a teaching contract: one of the bound store
operations (async or sync variants). -/
inductive CapFun where
  | aGet : (StateAsyncProps → String → Except StorageErr (JSVal × Mem)) → CapFun
  | aHas : (StateAsyncProps → String → Except StorageErr Bool) → CapFun
  | aGetAll : (StateAsyncProps → Mem) → CapFun
  | aOn : (StateAsyncProps → String → Nat → Registry) → CapFun
  | sGet : (StateProps → String → JSVal) → CapFun
  | sHas : (StateProps → String → Bool) → CapFun
  | sGetAll : (StateProps → Mem) → CapFun
  | sOn : (StateProps → String → Nat → Registry) → CapFun

/-- The `TeachingContract` artifact: unit id plus the capability map (an
ordered record of name/bound-callable pairs). -/
structure TeachingContract where
  unitId : String
  capabilities : List (String × CapFun)

/-- `StateAsync.teach()`: exports exactly `get`, `has`, `getAll`, `on`, each
bound to the live store (the schema block of the source is descriptive
metadata only and carries no behaviour). -/
def StateAsync.teach (s : StateAsyncProps) : TeachingContract :=
  { unitId := s.dnaId
    capabilities :=
      [ ("get", CapFun.aGet StateAsync.get)
      , ("has", CapFun.aHas StateAsync.has)
      , ("getAll", CapFun.aGetAll StateAsync.getAll)
      , ("on", CapFun.aOn StateAsync.on) ] }

/-- `State.teach()` (synchronous variant): same four observation capabilities. -/
def State.teach (s : StateProps) : TeachingContract :=
  { unitId := s.dnaId
    capabilities :=
      [ ("get", CapFun.sGet State.get)
      , ("has", CapFun.sHas State.has)
      , ("getAll", CapFun.sGetAll State.getAll)
      , ("on", CapFun.sOn State.on) ] }

/-- Keys of a teaching contract's capability map, in order. -/
def capKeys (t : TeachingContract) : List String :=
  t.capabilities.map Prod.fst

/-- Lookup of a capability by name in a teaching contract. -/
def capLookup (t : TeachingContract) (n : String) : Option CapFun :=
  (t.capabilities.find? (fun p => p.1 == n)).map Prod.snd

/-- The change-event invocations performed by one `StateAsync.set` call:
empty when `emitEvents` is off, otherwise the emission of
`key + ".changed"` with the pre-write memory value as `oldValue`. -/
def setEvents (s : StateAsyncProps) (key : String) (value : JSVal) :
    List (Nat × ChangePayload) :=
  if s.emitEvents then
    StateAsync.emit s (key ++ ".changed")
      { oldValue := memRead s.currentState key, newValue := value }
  else []

theorem memLookup_memWrite_self (m : Mem) (k : String) (v : JSVal) :
    memLookup (memWrite m k v) k = some v := by
  induction m with
  | nil => simp [memWrite, memLookup]
  | cons p rest ih =>
      obtain ⟨k', v'⟩ := p
      by_cases h : k' = k
      · simp [memWrite, memLookup, h]
      · simp [memWrite, memLookup, h, ih]

theorem memRead_memWrite_self (m : Mem) (k : String) (v : JSVal) :
    memRead (memWrite m k v) k = v := by
  simp [memRead, memLookup_memWrite_self]

theorem memLookup_memDelete_self (m : Mem) (k : String) :
    memLookup (memDelete m k) k = none := by
  induction m with
  | nil => rfl
  | cons p rest ih =>
      obtain ⟨k', v'⟩ := p
      by_cases h : k' = k
      · simpa [memDelete, List.filter_cons, h] using ih
      · simpa [memDelete, List.filter_cons, h, memLookup] using ih

theorem memLookup_memDelete_ne (m : Mem) (k k' : String) (h : k' ≠ k) :
    memLookup (memDelete m k) k' = memLookup m k' := by
  induction m with
  | nil => rfl
  | cons p rest ih =>
      obtain ⟨k0, v0⟩ := p
      by_cases h0 : k0 = k
      · have hkk : ¬ k = k' := fun hk => h hk.symm
        simp [memDelete, List.filter_cons, memLookup, h0, hkk] at ih ⊢
        exact ih
      · by_cases h1 : k0 = k'
        · simp [memDelete, List.filter_cons, h0, memLookup, h1, h]
        · simp [memDelete, List.filter_cons, memLookup, h0, h1] at ih ⊢
          exact ih

/-- A binding whose `get` always throws, while `set` always resolves;
`delete` resolves `false`, optional capabilities absent. -/
def okSetBinding : StorageBinding :=
  { get := fun _ => BRes.err
    set := fun _ _ _ => BRes.ok ()
    delete := fun _ => BRes.ok false
    existsFn := none
    clearFn := none }

/-- A binding all of whose operations throw (optional capabilities present
but always throwing). -/
def allFailBinding : StorageBinding :=
  { get := fun _ => BRes.err
    set := fun _ _ _ => BRes.err
    delete := fun _ => BRes.err
    existsFn := some (fun _ => BRes.err)
    clearFn := some BRes.err }

/-- A binding whose `get` always resolves to `null` ("not found"), with the
other operations resolving trivially. -/
def nullGetBinding : StorageBinding :=
  { get := fun _ => BRes.ok JSVal.null
    set := fun _ _ _ => BRes.ok ()
    delete := fun _ => BRes.ok false
    existsFn := none
    clearFn := none }

/-- A fresh store (empty memory, events off) bound to `okSetBinding`. -/
def storeGetFailSetOk : StateAsyncProps :=
  StateAsync.create
    { unitId := "s", initialState := none, emitEvents := none
      storage := some okSetBinding }

/-- A fresh store bound to the all-failing binding. -/
def storeAllFail : StateAsyncProps :=
  StateAsync.create
    { unitId := "f", initialState := none, emitEvents := none
      storage := some allFailBinding }

/-- A store holding `x ↦ 7` in memory, bound to the null-returning binding. -/
def storeNullGet : StateAsyncProps :=
  { dnaId := "state-n", ownerId := "n"
    currentState := [("x", JSVal.num 7)]
    eventHandlers := [], emitEvents := false
    storage := some nullGetBinding }

/-- A memory-only store holding a stored `null` under `x`. -/
def memNullStore : StateAsyncProps :=
  { dnaId := "state-z", ownerId := "z"
    currentState := [("x", JSVal.null)]
    eventHandlers := [], emitEvents := false
    storage := none }

/-- C1 counterexample: for the fresh store bound to a binding whose `set`
succeeds, `set("x", 1)` completes with the delegated write succeeding, yet
the in-memory mapping afterwards is still empty — it does not hold `1` for
`"x"`, refuting "it is never left stale after a successful
externally-delegated write". -/
theorem c1_counterexample :
    okSetBinding.set "x" (JSVal.num 1) none = BRes.ok () ∧
    storeGetFailSetOk.storage = some okSetBinding ∧
    storeGetFailSetOk.currentState = [] ∧
    StateAsync.set storeGetFailSetOk "x" (JSVal.num 1) none = Except.ok ([], []) ∧
    memLookup ([] : Mem) "x" ≠ some (JSVal.num 1) :=
  ⟨rfl, rfl, rfl, rfl, by decide⟩

/-- C1 (amended): for every store with a storage binding attached, a
`set(k, v)` whose delegated write throws writes `v` into the in-memory
mapping, a `set(k, v)` whose delegated write succeeds leaves the in-memory
mapping unchanged (the mirror is not refreshed on success), and a failure of
the binding's `get` leaves the in-memory mapping unmodified while `get`
falls back to it. -/
theorem c1_set_mirror (s : StateAsyncProps) (b : StorageBinding) (k : String)
    (v : JSVal) (ttl : Option Nat) (hb : s.storage = some b) :
    (b.set k v ttl = BRes.err →
      StateAsync.set s k v ttl =
        Except.ok (memWrite s.currentState k v, setEvents s k v) ∧
      memLookup (memWrite s.currentState k v) k = some v) ∧
    (∀ u : Unit, b.set k v ttl = BRes.ok u →
      StateAsync.set s k v ttl = Except.ok (s.currentState, setEvents s k v)) ∧
    (b.get k = BRes.err →
      StateAsync.get s k = Except.ok (memRead s.currentState k, s.currentState)) := by
  refine ⟨fun hset => ⟨?_, memLookup_memWrite_self _ _ _⟩, fun u hset => ?_, fun hget => ?_⟩
  · simp [StateAsync.set, setEvents, hb, hset]
  · simp [StateAsync.set, setEvents, hb, hset]
  · simp [StateAsync.get, hb, hget]

/-- C1 witness: the amended theorem applied to the fresh store bound to the
all-failing binding, key `"x"`, value `1`. -/
theorem c1_witness :
    StateAsync.set storeAllFail "x" (JSVal.num 1) none =
      Except.ok (memWrite storeAllFail.currentState "x" (JSVal.num 1),
        setEvents storeAllFail "x" (JSVal.num 1)) ∧
    memLookup (memWrite storeAllFail.currentState "x" (JSVal.num 1)) "x" =
      some (JSVal.num 1) :=
  (c1_set_mirror storeAllFail allFailBinding "x" (JSVal.num 1) none rfl).1 rfl

/-- C2 counterexample: for the fresh store whose binding always throws on
`get` but succeeds on `set`, `set("x", 1)` resolves without throwing, and the
subsequent `get("x")` falls back to memory — but resolves to `undefined`,
not `1`, because the successful delegated write left memory unchanged. -/
theorem c2_counterexample :
    StateAsync.set storeGetFailSetOk "x" (JSVal.num 1) none = Except.ok ([], []) ∧
    StateAsync.get storeGetFailSetOk "x" = Except.ok (JSVal.undef, []) ∧
    JSVal.undef ≠ JSVal.num 1 :=
  ⟨rfl, rfl, by decide⟩

/-- C2 (amended): for a store whose binding always throws on `get` but always
succeeds on `set`, `set("x", 1)` resolves without throwing and leaves memory
unchanged, and the subsequent `get("x")` falls back to memory and resolves
(without throwing) to the in-memory value of `"x"` from before the `set` —
`undefined` for a fresh store — rather than to `1`. -/
theorem c2_get_falls_back (s : StateAsyncProps) (b : StorageBinding)
    (hb : s.storage = some b) (hget : ∀ k, b.get k = BRes.err)
    (hset : ∀ k v t, b.set k v t = BRes.ok ()) :
    StateAsync.set s "x" (JSVal.num 1) none =
      Except.ok (s.currentState, setEvents s "x" (JSVal.num 1)) ∧
    StateAsync.get s "x" =
      Except.ok (memRead s.currentState "x", s.currentState) := by
  constructor
  · simp [StateAsync.set, setEvents, hb, hset "x" (JSVal.num 1) none]
  · simp [StateAsync.get, hb, hget "x"]

/-- C2 witness: the amended theorem applied to the fresh store bound to
`okSetBinding`. -/
theorem c2_witness :
    StateAsync.set storeGetFailSetOk "x" (JSVal.num 1) none =
      Except.ok (storeGetFailSetOk.currentState,
        setEvents storeGetFailSetOk "x" (JSVal.num 1)) ∧
    StateAsync.get storeGetFailSetOk "x" =
      Except.ok (memRead storeGetFailSetOk.currentState "x",
        storeGetFailSetOk.currentState) :=
  c2_get_falls_back storeGetFailSetOk okSetBinding rfl (fun _ => rfl)
    (fun _ _ _ => rfl)

/-- C3: if the binding's `set` throws for `k`, then `set(k, v)` resolves
without throwing and writes `v` into memory; a subsequent `get(k)` — whether
the binding's `get` also throws, or the binding has been detached — resolves
to `v` from memory. -/
theorem c3_graceful_set (s : StateAsyncProps) (b : StorageBinding) (k : String)
    (v : JSVal) (ttl : Option Nat) (hb : s.storage = some b)
    (hset : b.set k v ttl = BRes.err) :
    StateAsync.set s k v ttl =
      Except.ok (memWrite s.currentState k v, setEvents s k v) ∧
    memLookup (memWrite s.currentState k v) k = some v ∧
    (b.get k = BRes.err →
      StateAsync.get { s with currentState := memWrite s.currentState k v } k =
        Except.ok (v, memWrite s.currentState k v)) ∧
    StateAsync.get
        { s with currentState := memWrite s.currentState k v, storage := none } k =
      Except.ok (v, memWrite s.currentState k v) := by
  refine ⟨?_, memLookup_memWrite_self _ _ _, fun hget => ?_, ?_⟩
  · simp [StateAsync.set, setEvents, hb, hset]
  · simp [StateAsync.get, hb, hget, memRead_memWrite_self]
  · simp [StateAsync.get, memRead_memWrite_self]

/-- C3 witness: the theorem applied to the fresh store bound to the
all-failing binding, key `"y"`, value `2`. -/
theorem c3_witness :
    StateAsync.set storeAllFail "y" (JSVal.num 2) none =
      Except.ok (memWrite storeAllFail.currentState "y" (JSVal.num 2),
        setEvents storeAllFail "y" (JSVal.num 2)) ∧
    memLookup (memWrite storeAllFail.currentState "y" (JSVal.num 2)) "y" =
      some (JSVal.num 2) ∧
    StateAsync.get
        { storeAllFail with
          currentState := memWrite storeAllFail.currentState "y" (JSVal.num 2) }
        "y" =
      Except.ok (JSVal.num 2,
        memWrite storeAllFail.currentState "y" (JSVal.num 2)) :=
  ⟨(c3_graceful_set storeAllFail allFailBinding "y" (JSVal.num 2) none rfl rfl).1,
   (c3_graceful_set storeAllFail allFailBinding "y" (JSVal.num 2) none rfl rfl).2.1,
   (c3_graceful_set storeAllFail allFailBinding "y" (JSVal.num 2) none rfl rfl).2.2.1 rfl⟩

/-- C4: when the attached binding's `get(k)` resolves successfully, `get(k)`
returns the resolved value (through `?? undefined`) without consulting
memory — the result is the same for every in-memory mapping — and a
successful `null` ("not found") yields `undefined` even when the key is
present in memory. -/
theorem c4_storage_authoritative (s : StateAsyncProps) (b : StorageBinding)
    (k : String) (v : JSVal) (hb : s.storage = some b)
    (hok : b.get k = BRes.ok v) :
    StateAsync.get s k = Except.ok (nullishToUndef v, s.currentState) ∧
    (∀ m : Mem, StateAsync.get { s with currentState := m } k =
      Except.ok (nullishToUndef v, m)) ∧
    (v = JSVal.null → ∀ m : Mem, memHas m k = true →
      StateAsync.get { s with currentState := m } k =
        Except.ok (JSVal.undef, m)) := by
  refine ⟨?_, fun m => ?_, fun hv m _ => ?_⟩
  · simp [StateAsync.get, hb, hok]
  · simp [StateAsync.get, hb, hok]
  · simp [StateAsync.get, hb, hok, hv, nullishToUndef]

/-- C4 witness: the theorem applied to the store whose binding resolves
`null` for every key while memory holds `x ↦ 7`. -/
theorem c4_witness :
    StateAsync.get storeNullGet "x" =
      Except.ok (nullishToUndef JSVal.null, storeNullGet.currentState) :=
  (c4_storage_authoritative storeNullGet nullGetBinding "x" JSVal.null rfl rfl).1

/-- C5: `delete(k)` always resolves, always removes `k` from the in-memory
mapping (leaving other keys untouched), and resolves to `true` exactly when
the binding's `delete` resolved `true` or `k` was present in memory before
the call. -/
theorem c5_delete_semantics (s : StateAsyncProps) (k : String) :
    ∃ r : Bool,
      StateAsync.delete s k = Except.ok (r, memDelete s.currentState k) ∧
      memLookup (memDelete s.currentState k) k = none ∧
      (∀ k', ¬ k' = k →
        memLookup (memDelete s.currentState k) k' = memLookup s.currentState k') ∧
      (r = true ↔
        (∃ b, s.storage = some b ∧ b.delete k = BRes.ok true) ∨
        memHas s.currentState k = true) := by
  refine ⟨_, rfl, memLookup_memDelete_self _ _,
    fun k' h => memLookup_memDelete_ne _ _ _ h, ?_⟩
  cases hs : s.storage with
  | none => simp [hs]
  | some b =>
      cases hd : b.delete k with
      | ok r0 => cases r0 <;> simp [hs, hd]
      | err => simp [hs, hd]

/-- The hypothesis of C6: a binding every operation of which throws when
called (optional capabilities, when present, also throw). -/
def failsAlways (b : StorageBinding) : Prop :=
  (∀ k, b.get k = BRes.err) ∧ (∀ k v t, b.set k v t = BRes.err) ∧
  (∀ k, b.delete k = BRes.err) ∧
  (∀ f, b.existsFn = some f → ∀ k, f k = BRes.err) ∧
  (∀ c, b.clearFn = some c → c = BRes.err)

/-- The same store with the storage binding detached: the memory-only
behaviour referenced by the spec's failure semantics. -/
def noBinding (s : StateAsyncProps) : StateAsyncProps :=
  { s with storage := none }

theorem allFailBinding_failsAlways : failsAlways allFailBinding := by
  refine ⟨fun _ => rfl, fun _ _ _ => rfl, fun _ => rfl,
    fun f hf k => ?_, fun c hc => ?_⟩
  · injection hf with h
    subst h
    rfl
  · injection hc with h
    exact h.symm

/-- C6: for a store whose binding throws on every operation (with optional
capabilities either absent or throwing), `get`, `set`, `has`, `delete` and
`clear` all resolve without throwing, and each behaves exactly as on the
same store with no binding attached (memory-only behaviour). -/
theorem c6_no_storage_error_escapes (s : StateAsyncProps) (b : StorageBinding)
    (hb : s.storage = some b) (hf : failsAlways b) :
    (∀ k, (∃ r, StateAsync.get s k = Except.ok r) ∧
      StateAsync.get s k = StateAsync.get (noBinding s) k) ∧
    (∀ k v ttl, (∃ r, StateAsync.set s k v ttl = Except.ok r) ∧
      StateAsync.set s k v ttl = StateAsync.set (noBinding s) k v ttl) ∧
    (∀ k, (∃ r, StateAsync.has s k = Except.ok r) ∧
      StateAsync.has s k = StateAsync.has (noBinding s) k) ∧
    (∀ k, (∃ r, StateAsync.delete s k = Except.ok r) ∧
      StateAsync.delete s k = StateAsync.delete (noBinding s) k) ∧
    ((∃ r, StateAsync.clear s = Except.ok r) ∧
      StateAsync.clear s = StateAsync.clear (noBinding s)) := by
  obtain ⟨hget, hset, hdel, hex, hcl⟩ := hf
  refine ⟨fun k => ?_, fun k v ttl => ?_, fun k => ?_, fun k => ?_, ?_⟩
  · exact ⟨⟨(memRead s.currentState k, s.currentState),
      by simp [StateAsync.get, hb, hget k]⟩,
      by simp [StateAsync.get, hb, hget k, noBinding]⟩
  · exact ⟨⟨(memWrite s.currentState k v, setEvents s k v),
      by simp [StateAsync.set, setEvents, hb, hset k v ttl]⟩,
      by simp [StateAsync.set, StateAsync.emit, hb, hset k v ttl, noBinding]⟩
  · cases hexq : b.existsFn with
    | some f =>
        have hfk := hex f hexq k
        exact ⟨⟨memHas s.currentState k, by simp [StateAsync.has, hb, hexq, hfk]⟩,
          by simp [StateAsync.has, hb, hexq, hfk, noBinding]⟩
    | none =>
        exact ⟨⟨memHas s.currentState k, by simp [StateAsync.has, hb, hexq]⟩,
          by simp [StateAsync.has, hb, hexq, noBinding]⟩
  · exact ⟨⟨(memHas s.currentState k, memDelete s.currentState k),
      by simp [StateAsync.delete, hb, hdel k]⟩,
      by simp [StateAsync.delete, hb, hdel k, noBinding]⟩
  · constructor
    · refine ⟨[], ?_⟩
      cases hc : b.clearFn with
      | some c => cases c <;> simp [StateAsync.clear, hb, hc]
      | none => simp [StateAsync.clear, hb, hc]
    · cases hc : b.clearFn with
      | some c => cases c <;> simp [StateAsync.clear, hb, hc, noBinding]
      | none => simp [StateAsync.clear, hb, hc, noBinding]

/-- C6 witness: the theorem applied to the fresh store bound to the
all-failing binding, projected to the `get` conjunct at key `"x"`. -/
theorem c6_witness :
    StateAsync.get storeAllFail "x" = StateAsync.get (noBinding storeAllFail) "x" :=
  ((c6_no_storage_error_escapes storeAllFail allFailBinding rfl
    allFailBinding_failsAlways).1 "x").2

/-- A store with events enabled, one subscriber (handler `0`) registered on
`"x.changed"`, empty memory, bound to the binding whose `set` succeeds. -/
def storeEventsOkSet : StateAsyncProps :=
  { dnaId := "state-e", ownerId := "e", currentState := []
    eventHandlers := [("x.changed", [0])], emitEvents := true
    storage := some okSetBinding }

/-- A memory-only store with events enabled and one subscriber (handler `5`)
registered on `"x.changed"`. -/
def storeEventsMemOnly : StateAsyncProps :=
  { dnaId := "state-m", ownerId := "m", currentState := []
    eventHandlers := [("x.changed", [5])], emitEvents := true
    storage := none }

/-- C7 counterexample: on a store with a binding whose delegated `set`
succeeds, `set("x", 1)` then `set("x", 2)` invoke the subscriber twice, but
the second payload carries `oldValue = undefined`, not `1` — `oldValue` is
read from the memory mirror, which the successful delegated write never
updated — refuting the claim for arbitrary store configurations. -/
theorem c7_counterexample :
    StateAsync.set storeEventsOkSet "x" (JSVal.num 1) none =
      Except.ok ([], [(0, { oldValue := JSVal.undef, newValue := JSVal.num 1 })]) ∧
    StateAsync.set storeEventsOkSet "x" (JSVal.num 2) none =
      Except.ok ([], [(0, { oldValue := JSVal.undef, newValue := JSVal.num 2 })]) ∧
    ({ oldValue := JSVal.undef, newValue := JSVal.num 2 } : ChangePayload) ≠
      { oldValue := JSVal.num 1, newValue := JSVal.num 2 } :=
  ⟨rfl, rfl, by decide⟩

/-- C7 (amended): on a store with no storage binding attached (so that each
write lands in memory), with exactly one subscriber on `"k.changed"` and `k`
fresh in memory, `set(k, v1)` then `set(k, v2)` invoke the handler exactly
twice, with payloads `{oldValue: undefined, newValue: v1}` then
`{oldValue: v1, newValue: v2}` in that order, when `emitEvents` is enabled;
when it is disabled the handler is invoked zero times. -/
theorem c7_change_event_sequence (s : StateAsyncProps) (k : String)
    (v1 v2 : JSVal) (h : Nat) (hs : s.storage = none)
    (hfresh : memLookup s.currentState k = none)
    (hsub : regLookup s.eventHandlers (k ++ ".changed") = some [h]) :
    (s.emitEvents = true →
      StateAsync.set s k v1 none =
        Except.ok (memWrite s.currentState k v1,
          [(h, { oldValue := JSVal.undef, newValue := v1 })]) ∧
      StateAsync.set { s with currentState := memWrite s.currentState k v1 }
          k v2 none =
        Except.ok (memWrite (memWrite s.currentState k v1) k v2,
          [(h, { oldValue := v1, newValue := v2 })])) ∧
    (s.emitEvents = false →
      StateAsync.set s k v1 none =
        Except.ok (memWrite s.currentState k v1, []) ∧
      StateAsync.set { s with currentState := memWrite s.currentState k v1 }
          k v2 none =
        Except.ok (memWrite (memWrite s.currentState k v1) k v2, [])) := by
  constructor <;> intro he <;> constructor <;>
    simp [StateAsync.set, StateAsync.emit, hs, he, hsub, memRead, hfresh,
      memLookup_memWrite_self]

/-- C7 witness: the amended theorem applied to the memory-only store with
subscriber `5` on `"x.changed"`, values `1` then `2`. -/
theorem c7_witness :
    StateAsync.set storeEventsMemOnly "x" (JSVal.num 1) none =
      Except.ok (memWrite storeEventsMemOnly.currentState "x" (JSVal.num 1),
        [(5, { oldValue := JSVal.undef, newValue := JSVal.num 1 })]) ∧
    StateAsync.set
        { storeEventsMemOnly with
          currentState := memWrite storeEventsMemOnly.currentState "x" (JSVal.num 1) }
        "x" (JSVal.num 2) none =
      Except.ok
        (memWrite (memWrite storeEventsMemOnly.currentState "x" (JSVal.num 1))
          "x" (JSVal.num 2),
        [(5, { oldValue := JSVal.num 1, newValue := JSVal.num 2 })]) :=
  (c7_change_event_sequence storeEventsMemOnly "x" (JSVal.num 1) (JSVal.num 2) 5
    rfl rfl (by decide)).1 rfl

/-- C8: for every store configuration (async and sync alike), the capability
map produced by `teach()` has exactly the keys `get`, `has`, `getAll`, `on`
(in that order) and contains no `set`, `delete`, `emit` or `clear`; the
exported `getAll` capability is the store's own live `getAll`, which reads
the current memory, so calling it through the export equals a direct call at
the same point in time. -/
theorem c8_teach_capabilities (s : StateAsyncProps) (t : StateProps) :
    capKeys (StateAsync.teach s) = ["get", "has", "getAll", "on"] ∧
    capKeys (State.teach t) = ["get", "has", "getAll", "on"] ∧
    capLookup (StateAsync.teach s) "set" = none ∧
    capLookup (StateAsync.teach s) "delete" = none ∧
    capLookup (StateAsync.teach s) "emit" = none ∧
    capLookup (StateAsync.teach s) "clear" = none ∧
    capLookup (State.teach t) "set" = none ∧
    capLookup (State.teach t) "delete" = none ∧
    capLookup (State.teach t) "emit" = none ∧
    capLookup (State.teach t) "clear" = none ∧
    capLookup (StateAsync.teach s) "getAll" =
      some (CapFun.aGetAll StateAsync.getAll) ∧
    StateAsync.getAll s = s.currentState ∧
    capLookup (State.teach t) "getAll" = some (CapFun.sGetAll State.getAll) ∧
    State.getAll t = t.currentState :=
  ⟨rfl, rfl, rfl, rfl, rfl, rfl, rfl, rfl, rfl, rfl, rfl, rfl, rfl, rfl⟩

/-- C9: when the attached binding's `get(k)` resolves to `null`, `get(k)`
resolves to `undefined` (absent); on the memory-only path a stored `null` is
returned unchanged. -/
theorem c9_null_normalization (k : String) :
    (∀ (s : StateAsyncProps) (b : StorageBinding), s.storage = some b →
      b.get k = BRes.ok JSVal.null →
      StateAsync.get s k = Except.ok (JSVal.undef, s.currentState)) ∧
    (∀ s : StateAsyncProps, s.storage = none →
      memLookup s.currentState k = some JSVal.null →
      StateAsync.get s k = Except.ok (JSVal.null, s.currentState)) := by
  constructor
  · intro s b hb hok
    simp [StateAsync.get, hb, hok, nullishToUndef]
  · intro s hs hmem
    simp [StateAsync.get, hs, memRead, hmem]

/-- C9 witness: the theorem applied to the null-resolving-binding store
(memory holds `x ↦ 7`, result is `undefined`) and to the memory-only store
holding a stored `null` (result is `null`). -/
theorem c9_witness :
    StateAsync.get storeNullGet "x" =
      Except.ok (JSVal.undef, storeNullGet.currentState) ∧
    StateAsync.get memNullStore "x" =
      Except.ok (JSVal.null, memNullStore.currentState) :=
  ⟨(c9_null_normalization "x").1 storeNullGet nullGetBinding rfl rfl,
   (c9_null_normalization "x").2 memNullStore rfl rfl⟩

/-- The configuration of C10's witness: `emitEvents` omitted. -/
def cfgNoEvents : StateAsyncConfig :=
  { unitId := "w", initialState := none, emitEvents := none, storage := none }

/-- C10: `StateAsync.create` with a config omitting `emitEvents` produces a
store with the flag `false`; any store whose flag is `false` performs zero
handler invocations on every `set`; a config with `emitEvents` explicitly
`true` produces the flag `true`; and the synchronous `State.set` always
emits — its invocation list is exactly the registered `"k.changed"` handlers
applied to the old/new payload. -/
theorem c10_events_default_off (config : StateAsyncConfig)
    (hc : config.emitEvents = none) :
    (StateAsync.create config).emitEvents = false ∧
    (∀ (s : StateAsyncProps) (k : String) (v : JSVal) (ttl : Option Nat),
      s.emitEvents = false →
      ∃ m, StateAsync.set s k v ttl = Except.ok (m, [])) ∧
    (∀ c : StateAsyncConfig, c.emitEvents = some true →
      (StateAsync.create c).emitEvents = true) ∧
    (∀ (t : StateProps) (k : String) (v : JSVal),
      (State.set t k v).2 =
        ((regLookup t.eventHandlers (k ++ ".changed")).getD []).map
          (fun hh => (hh, { oldValue := memRead t.currentState k, newValue := v }))) := by
  refine ⟨by simp [StateAsync.create, hc], ?_,
    fun c hc' => by simp [StateAsync.create, hc'], fun t k v => rfl⟩
  intro s k v ttl he
  refine ⟨match s.storage with
    | some b =>
        match b.set k v ttl with
        | BRes.ok _ => s.currentState
        | BRes.err => memWrite s.currentState k v
    | none => memWrite s.currentState k v, ?_⟩
  simp [StateAsync.set, he]

/-- C10 witness: the theorem applied to the concrete config omitting
`emitEvents`, projected to the flag-default conjunct. -/
theorem c10_witness :
    (StateAsync.create cfgNoEvents).emitEvents = false :=
  (c10_events_default_off cfgNoEvents rfl).1
